import Mathlib

/-!
Verification development for the jamf repository (TypeScript sources
src/JamfType.ts and src/JamfUtilities.ts, the latter also containing the
JamfObjectId and JamfDBRef validator classes).

The embedding is shallow: JavaScript runtime values are an inductive type,
the mutable issue array of the shared parse context is threaded as explicit
state, promises are modelled as already-resolved deferred values tagged
apart from synchronous results (one top-level call has no real concurrency,
see spec section 5), and anything JavaScript may throw is modelled with
Except. The bson library boundary (ObjectId and DBRef construction) is
modelled from its documented behaviour: ObjectId accepts a 24 character
case-insensitive hex string and stores it lowercased; DBRef splits a dotted
collection name and never validates its oid argument.
-/

set_option autoImplicit false

/-- Path segments of a parse path: strings or array indices. -/
inductive PathSeg where
  | str (s : String)
  | num (n : Int)
deriving DecidableEq

/-- JavaScript runtime values, restricted to the shapes the two validators
inspect. A plain object carries the four field names the code reads
(written refV, idV, dbV, oidV for the dollar-prefixed properties) with
vUndefined standing for an absent field, exactly as property access on a
missing field yields undefined; ctorName is the constructor name reported
for error messages. -/
inductive JSValue : Type where
  | vNull
  | vUndefined
  | vBool (b : Bool)
  | vNum (n : Int)
  | vStr (s : String)
  | vObjectId (hex : String)
  | vDBRef (collection : String) (oid : JSValue) (db : JSValue)
  | vObj (refV idV dbV oidV : JSValue) (ctorName : String)
deriving DecidableEq

/-- JavaScript truthiness on the modelled values. -/
def truthy : JSValue → Bool
  | .vNull => false
  | .vUndefined => false
  | .vBool b => b
  | .vNum n => n != 0
  | .vStr s => s != ""
  | .vObjectId _ => true
  | .vDBRef _ _ _ => true
  | .vObj _ _ _ _ _ => true

/-- The test given by JavaScript, where typeof null is the string object. -/
def typeofIsObject : JSValue → Bool
  | .vNull => true
  | .vObjectId _ => true
  | .vDBRef _ _ _ => true
  | .vObj _ _ _ _ _ => true
  | _ => false

/-- The typeof x === string test. -/
def typeofIsString : JSValue → Bool
  | .vStr _ => true
  | _ => false

/-- The x instanceof Object test: true for objects, false for null and
primitives. -/
def instanceofObject : JSValue → Bool
  | .vObjectId _ => true
  | .vDBRef _ _ _ => true
  | .vObj _ _ _ _ _ => true
  | _ => false

/-- Reading the dollar-ref property of a value that is not null or
undefined: objects yield their field, everything else yields undefined. -/
def fieldRef : JSValue → JSValue
  | .vObj r _ _ _ _ => r
  | _ => .vUndefined

/-- Reading the dollar-id property. -/
def fieldId : JSValue → JSValue
  | .vObj _ i _ _ _ => i
  | _ => .vUndefined

/-- Reading the dollar-db property. -/
def fieldDb : JSValue → JSValue
  | .vObj _ _ d _ _ => d
  | _ => .vUndefined

/-- Reading the dollar-oid property. -/
def fieldOid : JSValue → JSValue
  | .vObj _ _ _ o _ => o
  | _ => .vUndefined

/-- getUnkownType from src/JamfUtilities.ts: typeof for primitives, the
constructor name for objects, and the string null for null. -/
def getUnkownType : JSValue → String
  | .vNull => "null"
  | .vUndefined => "undefined"
  | .vBool _ => "boolean"
  | .vNum _ => "number"
  | .vStr _ => "string"
  | .vObjectId _ => "ObjectId"
  | .vDBRef _ _ _ => "DBRef"
  | .vObj _ _ _ _ ctorName => ctorName

/-- The zod issue codes the repository emits. -/
inductive ZodIssueCode where
  | invalid_type
  | custom
deriving DecidableEq

/-- A recorded zod issue. addIssueToContext stamps the context path onto the
issue; message resolution through zod error maps is framework-internal and
kept as the raw data the repository passes in. -/
structure ZodIssue where
  code : ZodIssueCode
  path : List PathSeg
  expected : Option String := none
  received : Option String := none
  message : Option String := none
deriving DecidableEq

/-- The mutable issue array of the shared parse context, threaded as
explicit state. -/
abbrev Issues := List ZodIssue

/-- The readonly common flags of a JamfParseContext (JamfType.ts lines
21 to 28). The mutable issues array is threaded separately; async and
parseToBSON are fixed for the lifetime of the context. -/
structure CommonCfg where
  async : Bool
  parseToBSON : Bool
deriving DecidableEq

/-- A JamfParseInput: the raw data, the path of that data, and the parent
context (its shared common flags; the shared issue array is the threaded
state). -/
structure JamfParseInput where
  data : JSValue
  path : List PathSeg
  parent : CommonCfg
deriving DecidableEq

/-- The optional caller parameters of safeParse and safeParseAsync
(JamfParseParams, all fields optional; an entirely absent params object is
the all-none record). The errorMap parameter only feeds zod-internal
message rendering and is threaded identically by both entry points, so it
is not modelled. -/
structure JamfSafeParseParams where
  path : Option (List PathSeg) := none
  async : Option Bool := none
  parseToBSON : Option Bool := none
deriving DecidableEq

/-- The two-case low-level result discriminant of the framework. -/
inductive SyncParseReturnType where
  | valid (value : JSValue)
  | invalid
deriving DecidableEq

/-- A possibly deferred low-level result. Deferred values are modelled as
already resolved (a parse has no real suspension in this model), but the
tag records whether the validator handed back a promise. -/
inductive ParseReturnType where
  | sync (r : SyncParseReturnType)
  | async (r : SyncParseReturnType)
deriving DecidableEq

/-- Awaiting a possibly deferred result. -/
def ParseReturnType.resolve : ParseReturnType → SyncParseReturnType
  | .sync r => r
  | .async r => r

/-- Raised JavaScript conditions: the TypeError from reading a property of
null, an uncaught bson construction error, the zod error thrown by
parseSync when it meets a promise, and the fatal error of handleResult. -/
inductive JSError where
  | typeError (msg : String)
  | bsonError (msg : String)
  | syncParseEncounteredPromise
  | validationFailedNoIssues
deriving DecidableEq

/-- Hex digits in canonical (lowercase) form. -/
def isCanonHexDigit (c : Char) : Bool :=
  c == '0' || c == '1' || c == '2' || c == '3' || c == '4' || c == '5' ||
  c == '6' || c == '7' || c == '8' || c == '9' ||
  c == 'a' || c == 'b' || c == 'c' || c == 'd' || c == 'e' || c == 'f'

/-- Uppercase hex digits. -/
def isUpperHexDigit (c : Char) : Bool :=
  c == 'A' || c == 'B' || c == 'C' || c == 'D' || c == 'E' || c == 'F'

/-- Hex digits as accepted by the bson ObjectId check, a case-insensitive
character class. -/
def isJSHexDigit (c : Char) : Bool := isCanonHexDigit c || isUpperHexDigit c

/-- Lowercasing of a hex digit, the canonicalisation the bson hex
decode-encode pair performs; identity on anything else. -/
def hexCharCanon (c : Char) : Char :=
  if c == 'A' then 'a' else if c == 'B' then 'b' else if c == 'C' then 'c'
  else if c == 'D' then 'd' else if c == 'E' then 'e' else if c == 'F' then 'f'
  else c

/-- The canonical hex form of a string: every hex digit lowercased. -/
def canonHex (s : String) : String := String.mk (s.data.map hexCharCanon)

/-- The bson acceptance test for a 24 character hex string. -/
def isValidOidString (s : String) : Bool :=
  s.length == 24 && s.data.all isJSHexDigit

/-- A string already in the canonical form toHexString produces. -/
def isCanonOidHex (s : String) : Bool :=
  s.length == 24 && s.data.all isCanonHexDigit

/-- The message of the bson error for a malformed ObjectId input string. -/
def oidCtorFailMsg : String :=
  "input must be a 24 character hex string, 12 byte Uint8Array, or an integer"

/-- new bson.ObjectId on a string: succeeds on a 24 character hex string,
storing the lowercased (canonical) form, and throws a format error
otherwise. -/
def bsonObjectIdOfString (s : String) : Except String String :=
  if isValidOidString s then .ok (canonHex s)
  else .error oidCtorFailMsg

/-- Stand-in for the identifier bson generates from a numeric timestamp;
the generated value contains random bytes, which a pure model cannot
produce, so a fixed placeholder is used. No claim exercises this branch. -/
def generatedOidHex (_n : Int) : String := "000000000000000000000000"

/-- new bson.ObjectId on an arbitrary value: strings go through the hex
check, an existing ObjectId is accepted with the same bytes, a number
generates a fresh identifier, and anything else throws. -/
def bsonObjectIdCtor : JSValue → Except String String
  | .vStr s => bsonObjectIdOfString s
  | .vObjectId h => .ok h
  | .vNum n => .ok (generatedOidHex n)
  | _ => .error "Argument passed in does not match the accepted types"

/-- new bson.DBRef(collection, oid, db): a dotted collection name of
exactly two parts moves its first part into the db slot; a non-string
collection makes the split call throw; the oid argument is never
validated. -/
def bsonDBRefCtor (collection : JSValue) (oid : JSValue) (db : JSValue) :
    Except String JSValue :=
  match collection with
  | .vStr s =>
    match s.splitOn "." with
    | [a, b] => .ok (.vDBRef b oid (.vStr a))
    | _ => .ok (.vDBRef s oid db)
  | _ => .error "collection.split is not a function"

/-- A zod schema as handleNestedParsing consumes it: its abstract parse
step over the shared context state. -/
structure Schema : Type where
  parse : JamfParseInput → Issues → Except JSError (ParseReturnType × Issues)

/-- The zod base method parseSync: run the parse step and throw if it
handed back a promise. -/
def Schema.parseSync (s : Schema) (input : JamfParseInput) (iss : Issues) :
    Except JSError (SyncParseReturnType × Issues) :=
  match s.parse input iss with
  | .error e => .error e
  | .ok (.sync r, i) => .ok (r, i)
  | .ok (.async _, _) => .error .syncParseEncounteredPromise

/-- The zod base method parseAsync: run the parse step and resolve the
result through Promise.resolve, which flattens an inner promise. -/
def Schema.parseAsync (s : Schema) (input : JamfParseInput) (iss : Issues) :
    Except JSError (SyncParseReturnType × Issues) :=
  match s.parse input iss with
  | .error e => .error e
  | .ok (r, i) => .ok (r.resolve, i)

/-- The then-chaining of a continuation onto a deferred sub-result: a
raised condition passes through, otherwise the continuation runs once the
sub-result is available and the whole becomes a deferred value (an inner
deferred result is flattened, as promise chaining does). -/
def promiseThen (p : Except JSError (SyncParseReturnType × Issues))
    (logic : SyncParseReturnType → Issues → Except JSError (ParseReturnType × Issues)) :
    Except JSError (ParseReturnType × Issues) :=
  match p with
  | .error e => .error e
  | .ok (r, i) =>
    match logic r i with
    | .error e => .error e
    | .ok (r2, i2) => .ok (.async r2.resolve, i2)

/-- The path argument of handleNestedParsing: a single segment or a list of
segments, as the TypeScript union type has it. -/
inductive PathArg where
  | one (seg : PathSeg)
  | many (segs : List PathSeg)
deriving DecidableEq

/-- Array.concat semantics on the path argument. -/
def PathArg.toList : PathArg → List PathSeg
  | .one seg => [seg]
  | .many segs => segs

/-- The inputParams record built at src/JamfUtilities.ts lines 22 to 26:
the sub-value as data, the enclosing path extended by the given segments,
and the very parent context of the enclosing input. -/
def nestedInputParams (path : PathArg) (input : JamfParseInput) (data : JSValue) :
    JamfParseInput :=
  { data := data, path := input.path ++ path.toList, parent := input.parent }

/-- handleNestedParsing from src/JamfUtilities.ts lines 15 to 33: build the
nested input, then either chain the continuation onto the asynchronous
parse step (when the enclosing context is in asynchronous mode) or apply it
directly to the synchronous step. -/
def handleNestedParsing (schema : Schema) (path : PathArg) (input : JamfParseInput)
    (data : JSValue)
    (logic : SyncParseReturnType → Issues → Except JSError (ParseReturnType × Issues))
    (iss : Issues) : Except JSError (ParseReturnType × Issues) :=
  let inputParams := nestedInputParams path input data
  if input.parent.async then
    promiseThen (schema.parseAsync inputParams iss) logic
  else
    match schema.parseSync inputParams iss with
    | .error e => .error e
    | .ok (r, i) => logic r i

/-- The candidate string derivation of JamfObjectId parse (lines 56 to 68
of the validator file): the data itself when it is a string, else the
dollar-oid field when the data is an Object instance carrying a truthy one,
else nothing. -/
def objectIdCandidate (d : JSValue) : Option JSValue :=
  if typeofIsString d then some d
  else if instanceofObject d && truthy (fieldOid d) then some (fieldOid d)
  else none

/-- The body of JamfObjectId parse. Every return statement of the
TypeScript body yields a synchronous low-level result; the wrapper below
injects them into the possibly-deferred type. An already-native ObjectId is
returned as-is in parseToBSON mode and otherwise rebuilt from its hex form
(that reconstruction sits outside the try block, so a failure would
propagate; real instances always carry canonical hex). A derived candidate
goes through the guarded constructor: success yields the native value or
its hex string according to parseToBSON, failure records a custom issue;
an underivable candidate records an invalid_type issue. -/
def jamfObjectIdParseCore (input : JamfParseInput) (iss : Issues) :
    Except JSError (SyncParseReturnType × Issues) :=
  match input.data with
  | .vObjectId h =>
    if input.parent.parseToBSON then
      .ok (.valid (.vObjectId h), iss)
    else
      match bsonObjectIdOfString h with
      | .ok h2 => .ok (.valid (.vObjectId h2), iss)
      | .error e => .error (.bsonError e)
  | d =>
    match objectIdCandidate d with
    | none =>
      .ok (.invalid, iss ++ [{ code := .invalid_type, path := input.path,
                               expected := some "ObjectId | string",
                               received := some (getUnkownType d) }])
    | some v =>
      match bsonObjectIdCtor v with
      | .ok h =>
        .ok (.valid (if input.parent.parseToBSON then .vObjectId h else .vStr h), iss)
      | .error e =>
        .ok (.invalid, iss ++ [{ code := .custom, path := input.path,
                                 message := some e }])

/-- JamfObjectId parse as a parse step: the core result seen as a
synchronous low-level result. -/
def JamfObjectId_parse (input : JamfParseInput) (iss : Issues) :
    Except JSError (ParseReturnType × Issues) :=
  match jamfObjectIdParseCore input iss with
  | .error e => .error e
  | .ok (r, i) => .ok (.sync r, i)

/-- The objectIDSchema field of JamfDBRef: an identifier validator instance
created by objectid(). -/
def objectIDSchema : Schema := { parse := JamfObjectId_parse }

/-- The continuation JamfDBRef passes to handleNestedParsing (lines 109 to
123 of the validator file), split out on the data it actually reads: the
enclosing data object and the context path. On a valid nested identifier it
attempts the native DBRef construction from the dollar-ref field, the
nested value and the dollar-db field, recording a custom issue when that
construction throws; on a nested invalid it propagates invalid without
constructing anything. Every branch is synchronous and nothing escapes. -/
def dbRefContinuationCore (d : JSValue) (p : List PathSeg)
    (result : SyncParseReturnType) (iss : Issues) : SyncParseReturnType × Issues :=
  match result with
  | .valid v =>
    match bsonDBRefCtor (fieldRef d) v (fieldDb d) with
    | .ok r => (.valid r, iss)
    | .error e => (.invalid, iss ++ [{ code := .custom, path := p, message := some e }])
  | .invalid => (.invalid, iss)

/-- The continuation as handed to handleNestedParsing. -/
def dbRefContinuation (input : JamfParseInput)
    (result : SyncParseReturnType) (iss : Issues) :
    Except JSError (ParseReturnType × Issues) :=
  let pr := dbRefContinuationCore input.data input.path result iss
  .ok (.sync pr.1, pr.2)

/-- JamfDBRef parse (lines 103 to 133 of the validator file). A native
DBRef passes through unchanged. Otherwise the guard reads typeof data
followed by the dollar-ref and dollar-id properties: since typeof null is
the string object, a null input reaches the property read and raises a
TypeError. With both fields truthy the identifier field is delegated to the
held identifier validator through handleNestedParsing under the path
segment dollar-id; otherwise an invalid_type issue naming DBRef is
recorded. -/
def JamfDBRef_parse (input : JamfParseInput) (iss : Issues) :
    Except JSError (ParseReturnType × Issues) :=
  match input.data with
  | .vDBRef c o dbv => .ok (.sync (.valid (.vDBRef c o dbv)), iss)
  | .vNull => .error (.typeError "Cannot read properties of null")
  | d =>
    if typeofIsObject d && truthy (fieldRef d) && truthy (fieldId d) then
      handleNestedParsing objectIDSchema (.one (.str "$id")) input (fieldId d)
        (dbRefContinuation input) iss
    else
      .ok (.sync .invalid, iss ++ [{ code := .invalid_type, path := input.path,
                                     expected := some "DBRef",
                                     received := some (getUnkownType d) }])

/-- The typeName discriminants of the repository. -/
inductive JamfFirstPartyTypeKind where
  | ObjectID
deriving DecidableEq

/-- The definition record of the identifier validator. -/
structure JamfObjectIdDef where
  typeName : JamfFirstPartyTypeKind
deriving DecidableEq

/-- The definition record of the composite reference validator. -/
structure JamfDBRefDef where
  typeName : JamfFirstPartyTypeKind
deriving DecidableEq

/-- A constructed validator instance: which class was instantiated,
together with its definition record. -/
inductive JamfSchemaInstance where
  | objectIdInst (defn : JamfObjectIdDef)
  | dbRefInst (defn : JamfDBRefDef)
deriving DecidableEq

/-- Whether an instance is one of the composite reference validator
class. -/
def JamfSchemaInstance.isDBRefInstance : JamfSchemaInstance → Bool
  | .objectIdInst _ => false
  | .dbRefInst _ => true

/-- JamfObjectId.create: a new JamfObjectId over the ObjectID type name. -/
def JamfObjectId_create : Unit → JamfSchemaInstance :=
  fun _ => .objectIdInst { typeName := .ObjectID }

/-- The exported objectid factory. -/
def objectid : Unit → JamfSchemaInstance := JamfObjectId_create

/-- JamfDBRef.create as written at lines 135 to 137 of the validator file:
it instantiates JamfObjectId over an ObjectID definition record, not the
JamfDBRef class. -/
def JamfDBRef_create : Unit → JamfSchemaInstance :=
  fun _ => .objectIdInst { typeName := .ObjectID }

/-- The exported dbref factory. -/
def dbref : Unit → JamfSchemaInstance := JamfDBRef_create

/-- The parse step dispatched by the class of an instance. -/
def instanceSchema : JamfSchemaInstance → Schema
  | .objectIdInst _ => { parse := JamfObjectId_parse }
  | .dbRefInst _ => { parse := JamfDBRef_parse }

/-- A SafeParseResult: success with the parsed data, or failure carrying
the issue sequence of the context from which the lazy error aggregate is
later built. -/
inductive SafeParseResult where
  | success (data : JSValue)
  | failure (issues : List ZodIssue)
deriving DecidableEq

/-- The aggregate error object built from the issue sequence. -/
structure ZodError where
  issues : List ZodIssue
deriving DecidableEq

/-- The lazy, memoized error getter of a failure result (JamfType.ts lines
78 to 83), modelled with its cache slot made explicit: an empty cache
computes the aggregate from the full issue sequence and stores it, a filled
cache is returned unchanged. -/
def errorGetter (ctxIssues : List ZodIssue) (cache : Option ZodError) :
    ZodError × Option ZodError :=
  match cache with
  | some e => (e, some e)
  | none => ({ issues := ctxIssues }, some { issues := ctxIssues })

/-- handleResult from JamfType.ts lines 63 to 86: a valid result becomes a
success; an invalid result with an empty issue sequence throws the fatal
validation-failed-but-no-issues error; otherwise a failure carrying the
issue sequence is returned. -/
def handleResult (iss : Issues) (result : SyncParseReturnType) :
    Except JSError SafeParseResult :=
  match result with
  | .valid v => .ok (.success v)
  | .invalid =>
    if iss.length = 0 then .error .validationFailedNoIssues
    else .ok (.failure iss)

/-- The fresh context common block safeParse builds (JamfType.ts lines 124
to 136): the async flag is taken from the caller parameters with default
false, as is parseToBSON. -/
def mkSafeParseContextCommon (params : JamfSafeParseParams) : CommonCfg :=
  { async := params.async.getD false, parseToBSON := params.parseToBSON.getD false }

/-- safeParse (JamfType.ts lines 120 to 140): build the fresh context, run
the synchronous parse step on the full data at the context path, and
resolve through handleResult. -/
def safeParse (v : JamfSchemaInstance) (data : JSValue) (params : JamfSafeParseParams) :
    Except JSError SafeParseResult :=
  let common := mkSafeParseContextCommon params
  let path := params.path.getD []
  match (instanceSchema v).parseSync { data := data, path := path, parent := common } [] with
  | .error e => .error e
  | .ok (r, iss) => handleResult iss r

/-- safeParseAsync (JamfType.ts lines 142 to 165): build a context with the
async flag unconditionally true, run the abstract parse step, await the
result whether or not it was deferred, and resolve through handleResult. -/
def safeParseAsync (v : JamfSchemaInstance) (data : JSValue) (params : JamfSafeParseParams) :
    Except JSError SafeParseResult :=
  let common : CommonCfg := { async := true, parseToBSON := params.parseToBSON.getD false }
  let path := params.path.getD []
  match (instanceSchema v).parse { data := data, path := path, parent := common } [] with
  | .error e => .error e
  | .ok (r, iss) => handleResult iss r.resolve

/-- Modelled from the spec, section 4.3 Nested Composition Helper: execute
the sub-validator against the record of the sub-value, the enclosing path
extended by the segments, and the shared enclosing context; if the
enclosing context is in asynchronous mode invoke the asynchronous step and
apply the continuation once it resolves, the whole becoming a deferred
value, otherwise invoke the synchronous step and apply the continuation
immediately. -/
def nestedCompositionSpec (schema : Schema) (segs : PathArg) (input : JamfParseInput)
    (subValue : JSValue)
    (cont : SyncParseReturnType → Issues → Except JSError (ParseReturnType × Issues))
    (iss : Issues) : Except JSError (ParseReturnType × Issues) :=
  let subInput : JamfParseInput :=
    { data := subValue, path := input.path ++ segs.toList, parent := input.parent }
  if input.parent.async then
    match schema.parseAsync subInput iss with
    | .error e => .error e
    | .ok (r, i) =>
      match cont r i with
      | .error e => .error e
      | .ok (r2, i2) => .ok (.async r2.resolve, i2)
  else
    match schema.parseSync subInput iss with
    | .error e => .error e
    | .ok (r, i) => cont r i

/-- The object of the composite propagation test: ref users, id bad. -/
def dbrefBadInput : JSValue :=
  .vObj (.vStr "users") (.vStr "bad") .vUndefined .vUndefined "Object"

/-- A 24 character uppercase hex string. -/
def upperHexSample : String := "507F1F77BCF86CD799439011"

/-- Its lowercase canonical form. -/
def lowerHexSample : String := "507f1f77bcf86cd799439011"

/-- A sample issue for witnesses. -/
def sampleIssue : ZodIssue :=
  { code := .custom, path := [], message := some "sample" }

/-! ### Supporting lemmas -/

theorem hexCharCanon_fixes_canon {c : Char} (h : isCanonHexDigit c = true) :
    hexCharCanon c = c := by
  simp only [isCanonHexDigit, Bool.or_eq_true, beq_iff_eq] at h
  rcases h with ((((((((((((((rfl | rfl) | rfl) | rfl) | rfl) | rfl) | rfl) | rfl) | rfl) | rfl) | rfl) | rfl) | rfl) | rfl) | rfl) | rfl <;> decide

theorem hexCharCanon_canon_of_js {c : Char} (h : isJSHexDigit c = true) :
    isCanonHexDigit (hexCharCanon c) = true := by
  simp only [isJSHexDigit, Bool.or_eq_true] at h
  rcases h with h | h
  · rw [hexCharCanon_fixes_canon h]; exact h
  · simp only [isUpperHexDigit, Bool.or_eq_true, beq_iff_eq] at h
    rcases h with ((((rfl | rfl) | rfl) | rfl) | rfl) | rfl <;> decide

theorem canonHex_fixes_canonical {s : String} (h : isCanonOidHex s = true) :
    canonHex s = s := by
  obtain ⟨l⟩ := s
  simp only [isCanonOidHex, Bool.and_eq_true, List.all_eq_true] at h
  obtain ⟨-, h2⟩ := h
  simp only [canonHex]
  congr 1
  calc l.map hexCharCanon = l.map id := List.map_congr_left fun c hc => hexCharCanon_fixes_canon (h2 c hc)
    _ = l := List.map_id l

theorem isValidOidString_of_canonical {s : String} (h : isCanonOidHex s = true) :
    isValidOidString s = true := by
  simp only [isCanonOidHex, Bool.and_eq_true, List.all_eq_true] at h
  obtain ⟨h1, h2⟩ := h
  simp only [isValidOidString, Bool.and_eq_true, List.all_eq_true]
  exact ⟨h1, fun c hc => by simp only [isJSHexDigit, Bool.or_eq_true]; exact Or.inl (h2 c hc)⟩

theorem bsonObjectIdOfString_canonical {s : String} (h : isCanonOidHex s = true) :
    bsonObjectIdOfString s = .ok s := by
  rw [bsonObjectIdOfString, if_pos (isValidOidString_of_canonical h), canonHex_fixes_canonical h]

/-! ### Claim theorems -/

/-- Claim C2 (code bug): the parse step must never raise, yet JamfDBRef
parse raises a TypeError on a null input, because typeof null is the
string object so null passes the object guard and the subsequent read of
the dollar-ref property throws; both entry points surface the raise
instead of a structured SafeParseResult. -/
theorem c2_dbref_null_raises :
    JamfDBRef_parse { data := .vNull, path := [],
                      parent := { async := false, parseToBSON := false } } []
      = .error (.typeError "Cannot read properties of null") ∧
    safeParse (.dbRefInst { typeName := .ObjectID }) .vNull { }
      = .error (.typeError "Cannot read properties of null") ∧
    safeParseAsync (.dbRefInst { typeName := .ObjectID }) .vNull { }
      = .error (.typeError "Cannot read properties of null") :=
  ⟨rfl, rfl, rfl⟩

/-- Claim C3: the static factory of the composite reference validator
builds a JamfObjectId instance over the ObjectID definition record, the
same instance the objectid factory builds, and not an instance of the
JamfDBRef class. -/
theorem c3_dbref_factory_builds_objectid :
    dbref () = JamfSchemaInstance.objectIdInst { typeName := .ObjectID } ∧
    dbref () = objectid () ∧
    (dbref ()).isDBRefInstance = false :=
  ⟨rfl, rfl, rfl⟩

/-- Claim C4, counterexample: safeParse does not ignore a caller-supplied
async flag; with async set the fresh context carries async equal to true,
and the flag is observable, as the synchronous entry then throws on a
validator that defers. -/
theorem c4_counterexample_async_honored :
    (mkSafeParseContextCommon { async := some true }).async = true ∧
    safeParse (.dbRefInst { typeName := .ObjectID }) dbrefBadInput { async := some true }
      = .error .syncParseEncounteredPromise :=
  ⟨rfl, rfl⟩

/-- Claim C4, amended: safeParse builds its fresh ParseContext with the
async flag taken from the caller-supplied parameter, defaulting to false
only when the parameter is absent; an absent flag behaves exactly like an
explicit false. -/
theorem c4_amended_async_from_params :
    ∀ (p : JamfSafeParseParams),
      (mkSafeParseContextCommon p).async = p.async.getD false ∧
      ∀ (v : JamfSchemaInstance) (d : JSValue),
        safeParse v d { p with async := none } = safeParse v d { p with async := some false } :=
  fun _ => ⟨rfl, fun _ _ => rfl⟩

/-- Claim C5: handleResult wraps a valid low-level result as a success;
an invalid result with an empty issue sequence fails fatally; an invalid
result with recorded issues becomes a failure carrying the full issue
sequence, whose error aggregate is computed from that sequence on first
access of the memoizing getter and returned unchanged by every later
access. -/
theorem c5_handleResult_resolution :
    (∀ (iss : Issues) (v : JSValue), handleResult iss (.valid v) = .ok (.success v)) ∧
    handleResult [] .invalid = .error .validationFailedNoIssues ∧
    (∀ (iss : Issues), iss.length ≠ 0 →
      handleResult iss .invalid = .ok (.failure iss)) ∧
    (∀ (iss : Issues), errorGetter iss none = ({ issues := iss }, some { issues := iss })) ∧
    (∀ (iss : Issues) (e : ZodError), errorGetter iss (some e) = (e, some e)) := by
  refine ⟨fun _ _ => rfl, rfl, fun iss h => ?_, fun _ => rfl, fun _ _ => rfl⟩
  simp only [handleResult, if_neg h]

/-- Witness for C5 at a concrete nonempty issue sequence. -/
theorem c5_handleResult_resolution_witness :
    handleResult [sampleIssue] .invalid = .ok (.failure [sampleIssue]) :=
  c5_handleResult_resolution.2.2.1 [sampleIssue] (by decide)

/-- Claim C6: handleNestedParsing coincides with the nested-composition
contract of the spec: it runs the sub-validator on the record of the
sub-value, the enclosing path extended by the given segments and the very
parent context of the enclosing input (so appended issues land in the
shared, threaded issue state), choosing the asynchronous step with chained
continuation when the enclosing context is in asynchronous mode and the
synchronous step with immediate continuation otherwise. -/
theorem c6_handleNestedParsing_matches_contract :
    (∀ (schema : Schema) (segs : PathArg) (input : JamfParseInput) (data : JSValue)
        (logic : SyncParseReturnType → Issues → Except JSError (ParseReturnType × Issues))
        (iss : Issues),
      handleNestedParsing schema segs input data logic iss
        = nestedCompositionSpec schema segs input data logic iss) ∧
    (∀ (segs : PathArg) (input : JamfParseInput) (data : JSValue),
      (nestedInputParams segs input data).data = data ∧
      (nestedInputParams segs input data).path = input.path ++ segs.toList ∧
      (nestedInputParams segs input data).parent = input.parent) := by
  constructor
  · intro schema segs input data logic iss
    cases hb : input.parent.async <;>
      simp [handleNestedParsing, nestedCompositionSpec, nestedInputParams, promiseThen, hb]
  · exact fun _ _ _ => ⟨rfl, rfl, rfl⟩

/-- Claim C10: the composite reference validator tests the dollar-ref and
dollar-id fields by truthiness, so any plain object with either field
falsy (absent, empty string, zero and so on) takes the invalid_type branch
naming DBRef, appending exactly that one issue and never delegating to the
identifier validator. -/
theorem c10_falsy_fields_invalid_type :
    ∀ (refV idV dbV oidV : JSValue) (nm : String) (path : List PathSeg)
      (cfg : CommonCfg) (iss : Issues),
      truthy refV = false ∨ truthy idV = false →
      JamfDBRef_parse { data := .vObj refV idV dbV oidV nm, path := path, parent := cfg } iss
        = .ok (.sync .invalid, iss ++ [{ code := .invalid_type, path := path,
                                         expected := some "DBRef",
                                         received := some nm }]) := by
  intro refV idV dbV oidV nm path cfg iss h
  rcases h with h | h <;>
    simp [JamfDBRef_parse, typeofIsObject, fieldRef, fieldId, getUnkownType, h]

/-- Witness for C10: an object with a present but empty dollar-ref and a
well-formed dollar-id is rejected as not a DBRef, without delegation. -/
theorem c10_falsy_fields_invalid_type_witness :
    JamfDBRef_parse { data := .vObj (.vStr "") (.vStr lowerHexSample) .vUndefined .vUndefined "Object",
                      path := [], parent := { async := false, parseToBSON := false } } []
      = .ok (.sync .invalid, [{ code := .invalid_type, path := [],
                                expected := some "DBRef", received := some "Object" }]) :=
  c10_falsy_fields_invalid_type (.vStr "") (.vStr lowerHexSample) .vUndefined .vUndefined
    "Object" [] { async := false, parseToBSON := false } [] (Or.inl (by decide))

/-- Claim C7, counterexample: an uppercase 24 character hex string is
accepted by the identifier constructor, but the parsed data is its
lowercased canonical form, not the input string itself, in both output
modes. -/
theorem c7_counterexample_uppercase_hex :
    safeParse (.objectIdInst { typeName := .ObjectID }) (.vStr upperHexSample)
        { parseToBSON := some false }
      = .ok (.success (.vStr lowerHexSample)) ∧
    safeParse (.objectIdInst { typeName := .ObjectID }) (.vStr upperHexSample)
        { parseToBSON := some true }
      = .ok (.success (.vObjectId lowerHexSample)) ∧
    (upperHexSample == lowerHexSample) = false :=
  ⟨rfl, rfl, by decide⟩

/-- Claim C7, amended: for every string the identifier constructor accepts
as hex (24 case-insensitive hex digits), validation succeeds; the data is
the lowercase canonicalisation of the string (the string itself whenever it
is already canonical), as a plain string without parseToBSON and as a
native identifier carrying that canonical hex form with it. -/
theorem c7_amended_roundtrip :
    ∀ (s : String), isValidOidString s = true →
      safeParse (.objectIdInst { typeName := .ObjectID }) (.vStr s) { parseToBSON := some false }
        = .ok (.success (.vStr (canonHex s))) ∧
      safeParse (.objectIdInst { typeName := .ObjectID }) (.vStr s) { parseToBSON := some true }
        = .ok (.success (.vObjectId (canonHex s))) ∧
      (isCanonOidHex s = true → canonHex s = s) := by
  intro s h
  refine ⟨?_, ?_, fun hc => canonHex_fixes_canonical hc⟩ <;>
    simp [safeParse, mkSafeParseContextCommon, instanceSchema, Schema.parseSync,
      JamfObjectId_parse, jamfObjectIdParseCore, objectIdCandidate, typeofIsString,
      bsonObjectIdCtor, bsonObjectIdOfString, h, handleResult, Option.getD]

/-- Witness for C7 at a canonical lowercase hex string. -/
theorem c7_amended_roundtrip_witness :
    isValidOidString lowerHexSample = true ∧
    safeParse (.objectIdInst { typeName := .ObjectID }) (.vStr lowerHexSample)
        { parseToBSON := some false }
      = .ok (.success (.vStr (canonHex lowerHexSample))) :=
  ⟨by decide, (c7_amended_roundtrip lowerHexSample (by decide)).1⟩

/-- Claim C8, counterexample: an already-native identifier validated
without parseToBSON comes back as a (fresh) native identifier instance,
not as its canonical hex string. -/
theorem c8_counterexample_instance_not_string :
    safeParse (.objectIdInst { typeName := .ObjectID }) (.vObjectId lowerHexSample)
        { parseToBSON := some false }
      = .ok (.success (.vObjectId lowerHexSample)) ∧
    ((JSValue.vObjectId lowerHexSample) == (JSValue.vStr lowerHexSample)) = false :=
  ⟨rfl, by decide⟩

/-- Claim C8, amended: a native identifier instance (whose hex form is
canonical, as every real instance has) validates successfully under both
entry points and both output modes; with parseToBSON it is returned
unchanged, and without parseToBSON a freshly rebuilt equal instance is
returned, not the canonical hex string. -/
theorem c8_amended_idempotence :
    ∀ (h : String), isCanonOidHex h = true →
      safeParse (.objectIdInst { typeName := .ObjectID }) (.vObjectId h)
          { parseToBSON := some true }
        = .ok (.success (.vObjectId h)) ∧
      safeParse (.objectIdInst { typeName := .ObjectID }) (.vObjectId h)
          { parseToBSON := some false }
        = .ok (.success (.vObjectId h)) ∧
      safeParseAsync (.objectIdInst { typeName := .ObjectID }) (.vObjectId h)
          { parseToBSON := some true }
        = .ok (.success (.vObjectId h)) ∧
      safeParseAsync (.objectIdInst { typeName := .ObjectID }) (.vObjectId h)
          { parseToBSON := some false }
        = .ok (.success (.vObjectId h)) := by
  intro h hc
  have hb := bsonObjectIdOfString_canonical hc
  refine ⟨rfl, ?_, rfl, ?_⟩ <;>
    simp [safeParse, safeParseAsync, mkSafeParseContextCommon, instanceSchema,
      Schema.parseSync, JamfObjectId_parse, jamfObjectIdParseCore, hb,
      handleResult, Option.getD, ParseReturnType.resolve]

/-- Witness for C8 at a concrete canonical instance. -/
theorem c8_amended_idempotence_witness :
    isCanonOidHex lowerHexSample = true ∧
    safeParse (.objectIdInst { typeName := .ObjectID }) (.vObjectId lowerHexSample)
        { parseToBSON := some false }
      = .ok (.success (.vObjectId lowerHexSample)) :=
  ⟨by decide, (c8_amended_idempotence lowerHexSample (by decide)).2.1⟩

/-- Claim C9: validating the object with ref users and id bad through the
composite reference validator fails under both entry points with exactly
one recorded issue, the custom issue of the identifier validator at the
path extended by the dollar-id segment, and no composite reference value
is produced. This holds for any base path and any parseToBSON setting. -/
theorem c9_composite_propagation :
    ∀ (p2b : Option Bool) (basePath : List PathSeg),
      safeParse (.dbRefInst { typeName := .ObjectID }) dbrefBadInput
          { path := some basePath, parseToBSON := p2b }
        = .ok (.failure [{ code := .custom, path := basePath ++ [.str "$id"],
                           message := some oidCtorFailMsg }]) ∧
      safeParseAsync (.dbRefInst { typeName := .ObjectID }) dbrefBadInput
          { path := some basePath, parseToBSON := p2b }
        = .ok (.failure [{ code := .custom, path := basePath ++ [.str "$id"],
                           message := some oidCtorFailMsg }]) :=
  fun _ _ => ⟨rfl, rfl⟩

/-! ### Sync and async entry comparison -/

theorem jamfObjectIdParseCore_ignores_async (d : JSValue) (p : List PathSeg)
    (iss : Issues) (a a' b : Bool) :
    jamfObjectIdParseCore { data := d, path := p, parent := { async := a, parseToBSON := b } } iss
      = jamfObjectIdParseCore { data := d, path := p, parent := { async := a', parseToBSON := b } } iss := by
  cases d <;> rfl

theorem objectIDSchema_parseSync (input : JamfParseInput) (iss : Issues) :
    objectIDSchema.parseSync input iss = jamfObjectIdParseCore input iss := by
  cases hc : jamfObjectIdParseCore input iss with
  | error e => simp [Schema.parseSync, objectIDSchema, JamfObjectId_parse, hc]
  | ok pr =>
    obtain ⟨r, i⟩ := pr
    simp [Schema.parseSync, objectIDSchema, JamfObjectId_parse, hc]

theorem objectIDSchema_parseAsync (input : JamfParseInput) (iss : Issues) :
    objectIDSchema.parseAsync input iss = jamfObjectIdParseCore input iss := by
  cases hc : jamfObjectIdParseCore input iss with
  | error e => simp [Schema.parseAsync, objectIDSchema, JamfObjectId_parse, hc]
  | ok pr =>
    obtain ⟨r, i⟩ := pr
    simp [Schema.parseAsync, objectIDSchema, JamfObjectId_parse, hc, ParseReturnType.resolve]

theorem entry_bridge (v : JamfSchemaInstance) (data : JSValue) (pth : List PathSeg) (b : Bool) :
    (match (instanceSchema v).parseSync { data := data, path := pth,
                                          parent := { async := false, parseToBSON := b } } [] with
     | .error e => (Except.error e : Except JSError SafeParseResult)
     | .ok (r, iss) => handleResult iss r)
    = (match (instanceSchema v).parse { data := data, path := pth,
                                        parent := { async := true, parseToBSON := b } } [] with
       | .error e => (Except.error e : Except JSError SafeParseResult)
       | .ok (r, iss) => handleResult iss r.resolve) := by
  cases v with
  | objectIdInst defn =>
    have hcore := jamfObjectIdParseCore_ignores_async data pth [] true false b
    cases hc : jamfObjectIdParseCore { data := data, path := pth,
                                       parent := { async := false, parseToBSON := b } } [] with
    | error e =>
      simp [instanceSchema, Schema.parseSync, JamfObjectId_parse, hcore, hc]
    | ok pr =>
      obtain ⟨r, i⟩ := pr
      simp [instanceSchema, Schema.parseSync, JamfObjectId_parse, hcore, hc,
        ParseReturnType.resolve]
  | dbRefInst defn =>
    cases data with
    | vNull => rfl
    | vUndefined => rfl
    | vBool bb => rfl
    | vNum n => rfl
    | vStr s => rfl
    | vObjectId hx => rfl
    | vDBRef c o dbv => rfl
    | vObj rv iv dv ov nm =>
      cases hr : truthy rv with
      | false =>
        simp [instanceSchema, Schema.parseSync, Schema.parseAsync, JamfDBRef_parse,
          typeofIsObject, fieldRef, fieldId, hr, handleResult, ParseReturnType.resolve]
      | true =>
        cases hi : truthy iv with
        | false =>
          simp [instanceSchema, Schema.parseSync, Schema.parseAsync, JamfDBRef_parse,
            typeofIsObject, fieldRef, fieldId, hr, hi, handleResult, ParseReturnType.resolve]
        | true =>
          have hcore := jamfObjectIdParseCore_ignores_async iv (pth ++ [PathSeg.str "$id"])
            [] true false b
          cases hc : jamfObjectIdParseCore { data := iv, path := pth ++ [PathSeg.str "$id"],
                                             parent := { async := false, parseToBSON := b } } [] with
          | error e =>
            simp [instanceSchema, Schema.parseSync, Schema.parseAsync, JamfDBRef_parse,
              typeofIsObject, fieldRef, fieldId, hr, hi, handleNestedParsing,
              nestedInputParams, PathArg.toList, promiseThen,
              objectIDSchema, JamfObjectId_parse, hcore, hc]
          | ok pr =>
            obtain ⟨rs, i1⟩ := pr
            cases hdc : dbRefContinuationCore (JSValue.vObj rv iv dv ov nm) pth rs i1 with
            | mk r2 i2 =>
              simp [instanceSchema, Schema.parseSync, Schema.parseAsync, JamfDBRef_parse,
                typeofIsObject, fieldRef, fieldId, hr, hi, handleNestedParsing,
                nestedInputParams, PathArg.toList, promiseThen,
                objectIDSchema, JamfObjectId_parse, hcore, hc,
                dbRefContinuation, hdc, ParseReturnType.resolve]

/-- Claim C1, counterexample: with the parameter set carrying async true,
the composite reference validator on a reference-shaped input makes
safeParse throw the synchronous-parse-met-a-promise error while
safeParseAsync resolves to a structured failure, so the two entry points do
not produce structurally equal SafeParseResults for every parameter set. -/
theorem c1_counterexample_async_param :
    safeParse (.dbRefInst { typeName := .ObjectID }) dbrefBadInput { async := some true }
      = .error .syncParseEncounteredPromise ∧
    safeParseAsync (.dbRefInst { typeName := .ObjectID }) dbrefBadInput { async := some true }
      = .ok (.failure [{ code := .custom, path := [.str "$id"],
                         message := some oidCtorFailMsg }]) :=
  ⟨rfl, rfl⟩

/-- Claim C1, amended: for every validator instance, input value and
parameter set whose async flag is not set to true (in particular for every
default parameter set), safeParse and safeParseAsync produce structurally
equal SafeParseResults: same success flag, same data on success, same
issue sequence on failure, and even the same raised condition when the
parse step raises. -/
theorem c1_amended_entry_equivalence :
    ∀ (v : JamfSchemaInstance) (data : JSValue) (params : JamfSafeParseParams),
      params.async ≠ some true →
      safeParse v data params = safeParseAsync v data params := by
  intro v data params h
  have hb : params.async.getD false = false := by
    cases hA : params.async with
    | none => rfl
    | some bb =>
      cases bb with
      | false => rfl
      | true => exact absurd hA h
  have hbridge := entry_bridge v data (params.path.getD []) (params.parseToBSON.getD false)
  simpa only [safeParse, safeParseAsync, mkSafeParseContextCommon, hb] using hbridge

/-- Witness for C1 at the composite validator, the bad reference object
and an absent parameter set. -/
theorem c1_amended_entry_equivalence_witness :
    safeParse (.dbRefInst { typeName := .ObjectID }) dbrefBadInput { }
      = safeParseAsync (.dbRefInst { typeName := .ObjectID }) dbrefBadInput { } :=
  c1_amended_entry_equivalence (.dbRefInst { typeName := .ObjectID }) dbrefBadInput { }
    (by decide)
